import Mathlib

/-!
Shallow embedding of the core of the `conversor-webp` repository:
the Validation Pipeline (`src/utils/fileValidation.ts`), the Object Store
(`src/utils/indexeddb.ts`), the Access Gateway (`public/sw.js`) and the
Compression Optimizer (the worker code embedded in the Index page).

JavaScript strings are modelled as `List Char`, byte buffers as `List Nat`,
blobs as a byte list together with a declared MIME type, and the
SHA-256 digest primitive as an explicit function parameter
`digest : Blob -> String`.
-/

/-- The character class of the regex `[<>:"/\\|?*\x00-\x1f]` used by
`fileValidation.ts`, `indexeddb.ts` and `sw.js` alike. -/
def isDangerousChar (c : Char) : Bool :=
  c == '<' || c == '>' || c == ':' || c == '"' || c == '/' || c == '\\' ||
  c == '|' || c == '?' || c == '*' || decide (c.toNat ≤ 31)

def MAX_FILE_SIZE : Nat := 50 * 1024 * 1024

def MAX_FILENAME_LENGTH : Nat := 255

/-- Scan modelling JavaScript `String.includes(pat)`. -/
def hasSubstr (pat : List Char) : List Char → Bool
  | [] => pat.isEmpty
  | c :: rest => pat.isPrefixOf (c :: rest) || hasSubstr pat rest

/-- Models `String.replace(pat, '')` for a string pattern: removes the first
occurrence of `pat` (JavaScript `replace` with a plain-string pattern
replaces only the first match). -/
def removeFirst : List Char → List Char → List Char
  | [], _ => []
  | c :: rest, pat =>
    if pat.isPrefixOf (c :: rest) then (c :: rest).drop pat.length
    else c :: removeFirst rest pat

namespace FileValidation

def ALLOWED_MIME_TYPES : List String :=
  ["image/jpeg", "image/jpg", "image/png", "image/webp", "image/gif"]

def ALLOWED_EXTENSIONS : List (List Char) :=
  [".jpg", ".jpeg", ".png", ".webp", ".gif"].map String.toList

/-- Models `getFileExtension`: `fileName.slice(fileName.lastIndexOf('.'))`, or the
empty string when there is no dot. -/
def getFileExtension (fileName : List Char) : List Char :=
  let revAfter := fileName.reverse.takeWhile (fun c => c ≠ '.')
  if revAfter.length = fileName.length then [] else '.' :: revAfter.reverse

/-- Models `validateFileType`: declared MIME type must be in the allow list AND the
lowercased filename extension must be in the (global) extension allow list.
The two checks are independent: no correspondence between the declared type
and the extension is verified. -/
def validateFileType (declaredType : String) (fileName : List Char) : Bool :=
  ALLOWED_MIME_TYPES.contains declaredType &&
  ALLOWED_EXTENSIONS.contains ((getFileExtension fileName).map Char.toLower)

/-- Models `validateFileSize`: fails on `size > MAX_FILE_SIZE` and on `size == 0`. -/
def validateFileSize (size : Nat) : Bool :=
  !(decide (MAX_FILE_SIZE < size)) && !(decide (size = 0))

/-- Models `validateFileName`: length bound, dangerous-character class, `..`
occurrence and leading `.` are all rejected. -/
def validateFileName (fileName : List Char) : Bool :=
  if MAX_FILENAME_LENGTH < fileName.length then false
  else if fileName.any isDangerousChar then false
  else if hasSubstr ['.', '.'] fileName || fileName.head? == some '.' then false
  else true

/-- The `MAGIC_NUMBERS` table declared at the top of `fileValidation.ts`. -/
def MAGIC_NUMBERS : List (List Nat) :=
  [[0xFF, 0xD8, 0xFF], [0x89, 0x50, 0x4E, 0x47],
   [0x52, 0x49, 0x46, 0x46], [0x47, 0x49, 0x46, 0x38]]

/-- Models `validateMagicNumbers`, as implemented: reads of absent indices yield
`undefined` (here `none`) and compare unequal to every byte.  Note the GIF
branch tests only the first three bytes `47 49 46`. -/
def validateMagicNumbers (bytes : List Nat) : Bool :=
  let isJPEG := bytes.get? 0 == some 0xFF && bytes.get? 1 == some 0xD8 &&
    bytes.get? 2 == some 0xFF
  let isPNG := bytes.get? 0 == some 0x89 && bytes.get? 1 == some 0x50 &&
    bytes.get? 2 == some 0x4E && bytes.get? 3 == some 0x47
  let isWebP := bytes.get? 0 == some 0x52 && bytes.get? 1 == some 0x49 &&
    bytes.get? 2 == some 0x46 && bytes.get? 3 == some 0x46
  let isGIF := bytes.get? 0 == some 0x47 && bytes.get? 1 == some 0x49 &&
    bytes.get? 2 == some 0x46
  isJPEG || isPNG || isWebP || isGIF

/-- One step of `replace(/\.+/g, '.')`: a maximal run of dots collapses to a
single dot, i.e. a dot followed by a dot is dropped. -/
def collapseDots : List Char → List Char
  | [] => []
  | [c] => [c]
  | a :: b :: rest =>
    if a = '.' ∧ b = '.' then collapseDots (b :: rest)
    else a :: collapseDots (b :: rest)

/-- Models `replace(/^\.+/, '')`. -/
def trimLeadingDots (s : List Char) : List Char :=
  s.dropWhile (fun c => c = '.')

/-- Models `sanitizeFileName`: strip the dangerous-character class, collapse dot
runs, trim leading dots, truncate to 255. -/
def sanitizeFileName (fileName : List Char) : List Char :=
  ((collapseDots (fileName.filter (fun c => !isDangerousChar c))).dropWhile
    (fun c => c = '.')).take MAX_FILENAME_LENGTH

end FileValidation

/-- A binary payload together with its declared MIME type (a JS `Blob`). -/
structure Blob where
  data : List Nat
  type : String
  deriving DecidableEq, Repr

def Blob.size (b : Blob) : Nat := b.data.length

/-- The persisted record shape of `indexeddb.ts` (`StoredImage`), also read
back by the service worker. -/
structure StoredImage where
  filename : List Char
  blob : Blob
  timestamp : Nat
  originalName : Option (List Char)
  checksum : Option String
  deriving DecidableEq, Repr

namespace IDB

def MAX_STORED_IMAGES : Nat := 100

def MAX_BLOB_SIZE : Nat := 50 * 1024 * 1024

def ALLOWED_BLOB_TYPES : List String :=
  ["image/webp", "image/jpeg", "image/png", "image/gif"]

/-- Models `validateBlob` of `indexeddb.ts` (textually identical in `sw.js`). -/
def validateBlob (blob : Blob) : Bool :=
  if blob.size = 0 then false
  else if MAX_BLOB_SIZE < blob.size then false
  else if !(ALLOWED_BLOB_TYPES.contains blob.type) then false
  else true

/-- Models `sanitizeFilename` of `indexeddb.ts`: strip the dangerous-character
class and truncate to 255; unlike the pipeline `sanitizeFileName` it does
not touch dots. -/
def sanitizeFilename (filename : List Char) : List Char :=
  (filename.filter (fun c => !isDangerousChar c)).take 255

/-- Digit of `Number.prototype.toString(36)`. -/
def base36Digit (n : Nat) : Char :=
  if n < 10 then Char.ofNat (48 + n) else Char.ofNat (87 + n)

/-- Digit-extraction loop of `Number.prototype.toString(36)`, with explicit
fuel so that it is structurally recursive; `n + 1` units of fuel are always
enough since the argument shrinks by a factor of 36 per step. -/
def base36Aux : Nat → Nat → List Char
  | 0, _ => []
  | fuel + 1, n =>
    if n < 36 then [base36Digit n]
    else base36Aux fuel (n / 36) ++ [base36Digit (n % 36)]

/-- Models `Number.prototype.toString(36)` on a natural number. -/
def base36 (n : Nat) : List Char :=
  base36Aux (n + 1) n

/-- Models `generateUniqueFilename` with its default tag `img`; `now` stands for
`Date.now()` and `rand` for the five characters
`Math.random().toString(36).substring(2, 7)`. -/
def generateUniqueFilename (now : Nat) (rand : List Char) : List Char :=
  "img-".toList ++ base36 now ++ "-".toList ++ rand ++ ".webp".toList

/-- IndexedDB `store.put` on a store with `keyPath: 'filename'`:
replace-or-insert by key.  The record for the key is the new one; records
under other keys are untouched. -/
def putRecord (store : List StoredImage) (img : StoredImage) : List StoredImage :=
  img :: store.filter (fun r => !(r.filename = img.filename : Bool))

/-- IndexedDB `store.get` by key. -/
def findRecord (store : List StoredImage) (key : List Char) : Option StoredImage :=
  store.find? (fun r => r.filename = key)

/-- Models `saveImageToDB`.  The pair returned is (outcome, post-state); every
`throw` happens before `store.put`, so the error branches return the
entering store.  `digest` models `generateChecksum` (SHA-256 as a hex
string), `now` models `Date.now()`. -/
def saveImageToDB (digest : Blob → String) (store : List StoredImage)
    (now : Nat) (rand : List Char) (blob : Blob)
    (filename : Option (List Char)) (originalName : Option (List Char)) :
    Except String (List Char) × List StoredImage :=
  if !(validateBlob blob) then
    (Except.error "Invalid blob: security validation failed", store)
  else
    let finalFilename := match filename with
      | some f => sanitizeFilename f
      | none => generateUniqueFilename now rand
    if finalFilename = [] then
      (Except.error "Invalid filename after sanitization", store)
    else if MAX_STORED_IMAGES ≤ store.length then
      (Except.error "Storage limit reached", store)
    else
      let img : StoredImage :=
        { filename := finalFilename, blob := blob, timestamp := now,
          originalName := originalName.map sanitizeFilename,
          checksum := some (digest blob) }
      (Except.ok finalFilename, putRecord store img)

/-- The pre-lookup phase of `getImageFromDB`: the requested filename is
sanitized, and the read is rejected (`none`) when the sanitized name is
empty or differs from the request; otherwise the storage lookup proceeds
under the sanitized (= original) key. -/
def getLookupKey (filename : List Char) : Option (List Char) :=
  let sanitizedFilename := sanitizeFilename filename
  if sanitizedFilename = [] ∨ ¬(sanitizedFilename = filename) then none
  else some sanitizedFilename

/-- Models `getImageFromDB` of `indexeddb.ts`: sanitize-guard, lookup, checksum
recomputation against the stored checksum when present, blob security
check, then the blob. -/
def getImageFromDB (digest : Blob → String) (store : List StoredImage)
    (filename : List Char) : Option Blob :=
  match getLookupKey filename with
  | none => none
  | some key =>
    match findRecord store key with
    | none => none
    | some result =>
      match result.checksum with
      | some c =>
        if !(digest result.blob = c : Bool) then none
        else if !(validateBlob result.blob) then none
        else some result.blob
      | none =>
        if !(validateBlob result.blob) then none
        else some result.blob

/-- Models `cleanupOldImages`: delete every record whose `timestamp` is at most
`now - 24h` (the `IDBKeyRange.upperBound` is inclusive); returns the
deletion count and the post-state. -/
def cleanupOldImages (store : List StoredImage) (now : Nat) :
    Nat × List StoredImage :=
  let oneDayAgo := now - 24 * 60 * 60 * 1000
  let kept := store.filter (fun r => !(decide (r.timestamp ≤ oneDayAgo)))
  (store.length - kept.length, kept)

end IDB

namespace SW

def IMAGE_PATH_DIR : List Char := "/imagens-geradas/".toList

/-- Models `validateRequest` of `sw.js`: same-origin, then the filename obtained by
removing the path tag must be nonempty, free of `..` and `/`, at most 255
long, and free of the dangerous-character class.  Note: a leading `.` is
not rejected here. -/
def validateRequest (requestOrigin selfOrigin : List Char)
    (pathname : List Char) : Bool :=
  if !(requestOrigin = selfOrigin : Bool) then false
  else
    let filename := removeFirst pathname IMAGE_PATH_DIR
    if filename = [] || hasSubstr ['.', '.'] filename ||
        hasSubstr ['/'] filename || decide (255 < filename.length) then false
    else if filename.any isDangerousChar then false
    else true

/-- The service worker `getImageFromDB`: the same sanitize-guard expression
as the store, then the in-memory blob cache, then the IndexedDB record; a
hit must pass `validateBlob`; a store hit is inserted into the cache.  No
digest is ever computed or compared on this path (the function does not
even receive a digest primitive).  Returns (response, post-cache). -/
def getImageFromDB (cache : List (List Char × Blob))
    (store : List StoredImage) (filename : List Char) :
    Option Blob × List (List Char × Blob) :=
  let sanitizedFilename :=
    (filename.filter (fun c => !isDangerousChar c)).take 255
  if sanitizedFilename = [] ∨ ¬(sanitizedFilename = filename) then
    (none, cache)
  else
    match cache.find? (fun e => e.1 = sanitizedFilename) with
    | some e => (if IDB.validateBlob e.2 then some e.2 else none, cache)
    | none =>
      match IDB.findRecord store sanitizedFilename with
      | some result =>
        if IDB.validateBlob result.blob then
          (some result.blob,
           (sanitizedFilename, result.blob) ::
             cache.filter (fun e => !(e.1 = sanitizedFilename : Bool)))
        else (none, cache)
      | none => (none, cache)

/-- The possible answers of the fetch listener on an intercepted request. -/
inductive GatewayOutcome where
  | notIntercepted
  | badRequest
  | ok (blob : Blob)
  | notFound
  deriving DecidableEq, Repr

/-- The `fetch` listener of `sw.js`.  The boolean records whether
`getImageFromDB` was invoked. -/
def handleFetch (selfOrigin requestOrigin : List Char)
    (pathname : List Char) (cache : List (List Char × Blob))
    (store : List StoredImage) : GatewayOutcome × Bool :=
  if !(IMAGE_PATH_DIR.isPrefixOf pathname) then (GatewayOutcome.notIntercepted, false)
  else if !(validateRequest requestOrigin selfOrigin pathname) then
    (GatewayOutcome.badRequest, false)
  else
    let filename := removeFirst pathname IMAGE_PATH_DIR
    match (getImageFromDB cache store filename).1 with
    | some blob => (GatewayOutcome.ok blob, true)
    | none => (GatewayOutcome.notFound, true)

end SW

namespace Optimizer

def TARGET_MIN_BYTES : Nat := 50 * 1024

def TARGET_MAX_BYTES : Nat := 100 * 1024

def ITERATIONS : Nat := 15

/-- The target-window midpoint `(TARGET_MIN_BYTES + TARGET_MAX_BYTES) / 2`. -/
def TARGET_MID : Nat := (TARGET_MIN_BYTES + TARGET_MAX_BYTES) / 2

/-- An encoded candidate: the quality it was produced at (standing for the
blob `canvas.convertToBlob({quality})`) and its byte size. -/
structure WebPResult where
  quality : ℚ
  size : Nat
  deriving DecidableEq, Repr

/-- The first bisection loop of `generateOptimizedWebP` (bracket `[0.1, 0.5]`):
probe the midpoint; a candidate of size `≤ TARGET_MAX_BYTES` is returned at
once, otherwise the upper bound drops to the midpoint.  Also returns the
list of probed qualities.  `enc q` is the size of `getWebpBlob(q)`. -/
def lowSearch (enc : ℚ → Nat) : Nat → ℚ → ℚ → Option WebPResult × List ℚ
  | 0, _, _ => (none, [])
  | i + 1, minQuality, maxQuality =>
    let currentQuality := (minQuality + maxQuality) / 2
    let s := enc currentQuality
    if s ≤ TARGET_MAX_BYTES then (some ⟨currentQuality, s⟩, [currentQuality])
    else
      let rest := lowSearch enc i minQuality currentQuality
      (rest.1, currentQuality :: rest.2)

/-- The second bisection loop of `generateOptimizedWebP` (bracket
`[0.5, 0.98]`), carrying the best candidate and its distance to the window
midpoint, exactly as the source updates them. -/
def highSearch (enc : ℚ → Nat) :
    Nat → ℚ → ℚ → WebPResult → Nat → WebPResult × List ℚ
  | 0, _, _, best, _ => (best, [])
  | i + 1, minQuality, maxQuality, best, closest =>
    let currentQuality := (minQuality + maxQuality) / 2
    let s := enc currentQuality
    let dist := Nat.dist s TARGET_MID
    let inWindow := TARGET_MIN_BYTES ≤ s ∧ s ≤ TARGET_MAX_BYTES
    let best1 := if inWindow ∧ dist < closest then (⟨currentQuality, s⟩ : WebPResult) else best
    let closest1 := if inWindow ∧ dist < closest then dist else closest
    if TARGET_MAX_BYTES < s then
      let rest := highSearch enc i minQuality currentQuality best1 closest1
      (rest.1, currentQuality :: rest.2)
    else
      let best2 := if dist < closest1 ∨ TARGET_MIN_BYTES ≤ s
        then (⟨currentQuality, s⟩ : WebPResult) else best1
      let closest2 := if dist < closest1 ∨ TARGET_MIN_BYTES ≤ s then dist else closest1
      let rest := highSearch enc i currentQuality maxQuality best2 closest2
      (rest.1, currentQuality :: rest.2)

/-- Models `generateOptimizedWebP` of the embedded worker code, together with the
full list of qualities at which an encoding was produced, in order.  When
the `[0.1, 0.5]` loop exhausts its 15 iterations without an admissible
candidate, control falls through to the `[0.5, 0.98]` loop. -/
def generateOptimizedWebP (enc : ℚ → Nat) : WebPResult × List ℚ :=
  let testSize := enc (98 / 100)
  if testSize < TARGET_MIN_BYTES then (⟨98 / 100, testSize⟩, [98 / 100])
  else
    let lowQualityTest := enc (1 / 2)
    let highRun := fun (probes : List ℚ) =>
      let r := highSearch enc ITERATIONS (1 / 2) (98 / 100)
        ⟨98 / 100, testSize⟩ (Nat.dist testSize TARGET_MID)
      (r.1, probes ++ r.2)
    if TARGET_MAX_BYTES < lowQualityTest then
      match lowSearch enc ITERATIONS (1 / 10) (1 / 2) with
      | (some r, qs) => (r, [98 / 100, 1 / 2] ++ qs)
      | (none, qs) => highRun ([98 / 100, 1 / 2] ++ qs)
    else highRun [98 / 100, 1 / 2]

end Optimizer

/-- The checksum-free part of a stored record: what the Access Gateway's
read path can depend on. -/
def recordView (r : StoredImage) : List Char × Blob := (r.filename, r.blob)

/-! ## Helper lemmas -/

namespace FileValidation

/-- The relation "not two consecutive dots", threaded through `Chain'`. -/
def NoDotPair (a b : Char) : Prop := ¬(a = '.' ∧ b = '.')

theorem mem_collapseDots {c : Char} : ∀ {l : List Char}, c ∈ collapseDots l → c ∈ l
  | [], h => by simp [collapseDots] at h
  | [a], h => by simpa [collapseDots] using h
  | a :: b :: rest, h => by
    by_cases hab : a = '.' ∧ b = '.'
    · rw [collapseDots, if_pos hab] at h
      exact List.mem_cons_of_mem a (mem_collapseDots h)
    · rw [collapseDots, if_neg hab] at h
      rcases List.mem_cons.mp h with h1 | h2
      · exact h1 ▸ List.mem_cons_self a (b :: rest)
      · exact List.mem_cons_of_mem a (mem_collapseDots h2)

theorem head?_collapseDots : ∀ l : List Char, (collapseDots l).head? = l.head?
  | [] => rfl
  | [_] => rfl
  | a :: b :: rest => by
    by_cases hab : a = '.' ∧ b = '.'
    · rw [collapseDots, if_pos hab, head?_collapseDots (b :: rest)]
      simp [hab.1, hab.2]
    · rw [collapseDots, if_neg hab]
      simp

theorem chain'_collapseDots : ∀ l : List Char, List.Chain' NoDotPair (collapseDots l)
  | [] => List.chain'_nil
  | [c] => List.chain'_singleton c
  | a :: b :: rest => by
    by_cases hab : a = '.' ∧ b = '.'
    · rw [collapseDots, if_pos hab]
      exact chain'_collapseDots (b :: rest)
    · rw [collapseDots, if_neg hab]
      refine List.chain'_cons'.mpr ⟨?_, chain'_collapseDots (b :: rest)⟩
      intro y hy
      rw [head?_collapseDots (b :: rest)] at hy
      simp only [List.head?_cons, Option.mem_def, Option.some.injEq] at hy
      intro hcon
      exact hab ⟨hcon.1, hy ▸ hcon.2⟩

theorem collapseDots_eq_self : ∀ {l : List Char}, List.Chain' NoDotPair l →
    collapseDots l = l
  | [], _ => rfl
  | [_], _ => rfl
  | a :: b :: rest, h => by
    have hab : NoDotPair a b := (List.chain'_cons.mp h).1
    rw [collapseDots, if_neg hab,
      collapseDots_eq_self (List.chain'_cons.mp h).2]

theorem not_dotdot_infix_of_chain' {l : List Char}
    (h : List.Chain' NoDotPair l) : ¬ ['.', '.'] <:+: l := by
  intro hinf
  have h2 : List.Chain' NoDotPair ['.', '.'] := h.infix hinf
  exact (List.chain'_cons.mp h2).1 ⟨rfl, rfl⟩

theorem trimLeadingDots_eq_self {l : List Char}
    (h : l.head? ≠ some '.') : trimLeadingDots l = l := by
  cases l with
  | nil => rfl
  | cons a t =>
    have ha : ¬ (a = '.') := by
      intro hcon; exact h (by simp [hcon])
    simp [trimLeadingDots, List.dropWhile_cons, ha]

theorem head?_take_of_pos {l : List Char} {n : Nat} (h : 0 < n) :
    (l.take n).head? = l.head? := by
  cases l with
  | nil => simp
  | cons a t =>
    cases n with
    | zero => omega
    | succ m => simp [List.take]

theorem head?_dropWhile_dot (l : List Char) :
    (l.dropWhile (fun c => c = '.')).head? ≠ some '.' := by
  intro hcon
  have := List.head?_dropWhile_not (fun c => decide (c = '.')) l
  simp_all

/-- The output of `sanitizeFileName` is clean, dot-safe and short. -/
theorem sanitizeFileName_props (x : List Char) :
    (∀ c ∈ sanitizeFileName x, isDangerousChar c = false) ∧
    List.Chain' NoDotPair (sanitizeFileName x) ∧
    (sanitizeFileName x).head? ≠ some '.' ∧
    (sanitizeFileName x).length ≤ MAX_FILENAME_LENGTH := by
  unfold sanitizeFileName
  set f := x.filter (fun c => !isDangerousChar c) with hf
  refine ⟨?_, ?_, ?_, ?_⟩
  · intro c hc
    have h1 : c ∈ (collapseDots f).dropWhile (fun c => c = '.') :=
      List.take_subset _ _ hc
    have h2 : c ∈ collapseDots f := (List.dropWhile_suffix _).subset h1
    have h3 : c ∈ f := mem_collapseDots h2
    have := List.of_mem_filter h3
    simpa using this
  · exact ((chain'_collapseDots f).suffix (List.dropWhile_suffix _)).take _
  · rw [head?_take_of_pos (by norm_num [MAX_FILENAME_LENGTH])]
    exact head?_dropWhile_dot _
  · rw [List.length_take]; exact min_le_left _ _

/-- A string that is already clean, dot-chained, not dot-led and short is a
fixed point of `sanitizeFileName`. -/
theorem sanitizeFileName_fixed {y : List Char}
    (hclean : ∀ c ∈ y, isDangerousChar c = false)
    (hchain : List.Chain' NoDotPair y)
    (hhead : y.head? ≠ some '.')
    (hlen : y.length ≤ MAX_FILENAME_LENGTH) :
    sanitizeFileName y = y := by
  unfold sanitizeFileName
  rw [List.filter_eq_self.mpr (by intro a ha; simp [hclean a ha]),
    collapseDots_eq_self hchain,
    show y.dropWhile (fun c => c = '.') = y from trimLeadingDots_eq_self hhead,
    List.take_of_length_le hlen]

end FileValidation

namespace IDB

theorem mem_sanitizeFilename {c : Char} {x : List Char}
    (h : c ∈ sanitizeFilename x) : isDangerousChar c = false := by
  have h1 : c ∈ x.filter (fun c => !isDangerousChar c) := List.take_subset _ _ h
  simpa using List.of_mem_filter h1

theorem sanitizeFilename_length_le (x : List Char) :
    (sanitizeFilename x).length ≤ 255 := by
  rw [sanitizeFilename, List.length_take]; exact min_le_left _ _

theorem sanitizeFilename_eq_self {x : List Char}
    (hclean : ∀ c ∈ x, isDangerousChar c = false) (hlen : x.length ≤ 255) :
    sanitizeFilename x = x := by
  rw [sanitizeFilename,
    List.filter_eq_self.mpr (by intro a ha; simp [hclean a ha]),
    List.take_of_length_le hlen]

theorem sanitizeFilename_idem (x : List Char) :
    sanitizeFilename (sanitizeFilename x) = sanitizeFilename x :=
  sanitizeFilename_eq_self (fun _ hc => mem_sanitizeFilename hc)
    (sanitizeFilename_length_le x)

theorem base36Digit_clean : ∀ n < 36,
    isDangerousChar (base36Digit n) = false ∧ ¬ (base36Digit n = '.') := by
  decide

theorem base36Aux_clean {c : Char} : ∀ (fuel n : Nat), c ∈ base36Aux fuel n →
    isDangerousChar c = false
  | 0, n, hc => by simp [base36Aux] at hc
  | fuel + 1, n, hc => by
    rw [base36Aux] at hc
    by_cases h : n < 36
    · rw [if_pos h] at hc
      rcases List.mem_singleton.mp hc with rfl
      exact (base36Digit_clean n h).1
    · rw [if_neg h] at hc
      rcases List.mem_append.mp hc with h1 | h2
      · exact base36Aux_clean fuel (n / 36) h1
      · rcases List.mem_singleton.mp h2 with rfl
        exact (base36Digit_clean _ (Nat.mod_lt n (by omega))).1

theorem base36_clean {c : Char} {n : Nat} (hc : c ∈ base36 n) :
    isDangerousChar c = false :=
  base36Aux_clean (n + 1) n hc

theorem generateUniqueFilename_clean {now : Nat} {rand : List Char}
    (hrand : ∀ c ∈ rand, isDangerousChar c = false) :
    ∀ c ∈ generateUniqueFilename now rand, isDangerousChar c = false := by
  intro c hc
  rw [generateUniqueFilename] at hc
  simp only [List.mem_append] at hc
  rcases hc with (((h1 | h2) | h3) | h4) | h5
  · have h1' : c ∈ ['i', 'm', 'g', '-'] := h1
    fin_cases h1' <;> decide
  · exact base36_clean h2
  · have h3' : c ∈ ['-'] := h3
    fin_cases h3'
    decide
  · exact hrand c h4
  · have h5' : c ∈ ['.', 'w', 'e', 'b', 'p'] := h5
    fin_cases h5' <;> decide

theorem findRecord_putRecord (store : List StoredImage) (img : StoredImage) :
    findRecord (putRecord store img) img.filename = some img := by
  rw [findRecord, putRecord]
  exact List.find?_cons_of_pos _ (by simp)

theorem getLookupKey_eq_some {f k : List Char}
    (h : getLookupKey f = some k) : k = f ∧ ¬ (f = []) := by
  rw [getLookupKey] at h
  split at h
  · exact absurd h (by simp)
  · next hcond =>
    push_neg at hcond
    have hk : k = sanitizeFilename f := (Option.some.injEq _ _ ▸ h).symm
    refine ⟨hk.trans hcond.2, fun hnil => hcond.1 ?_⟩
    rw [hcond.2, hnil]

theorem getLookupKey_of_fixed {f : List Char}
    (hfix : sanitizeFilename f = f) (hne : ¬ (f = [])) :
    getLookupKey f = some f := by
  rw [getLookupKey]
  rw [if_neg (by rw [hfix]; simp [hne]), hfix]

end IDB

/-! ## Claim theorems -/

/-- C3 (code bug): an input whose first three bytes are `47 49 46` but whose
fourth byte is `39` (not `38`) matches none of the four declared signatures
of the `MAGIC_NUMBERS` table, yet `validateMagicNumbers` accepts it: the
implemented GIF branch tests only three bytes. -/
theorem validateMagicNumbers_gif_fourth_byte_bug :
    FileValidation.validateMagicNumbers [0x47, 0x49, 0x46, 0x39] = true ∧
    FileValidation.MAGIC_NUMBERS.all
      (fun sig => !(sig.isPrefixOf [0x47, 0x49, 0x46, 0x39])) = true := by
  decide

/-- C4 (counterexample): a file declared `image/png` with extension `.jpg`
passes `validateFileType`, although the extension does not correspond to
the declared MIME type. -/
theorem validateFileType_png_jpg_accepted :
    FileValidation.validateFileType "image/png" ("a.jpg".toList) = true := by
  decide

/-- C4 (amended): `validateFileType` succeeds exactly when the declared MIME
type is in the allow list and the lowercased extension is in the global
extension allow list; the two checks are independent, so no correspondence
between extension and declared type is required. -/
theorem validateFileType_characterization (t : String) (name : List Char) :
    FileValidation.validateFileType t name = true ↔
      (t ∈ FileValidation.ALLOWED_MIME_TYPES ∧
       (FileValidation.getFileExtension name).map Char.toLower ∈
         FileValidation.ALLOWED_EXTENSIONS) := by
  rw [FileValidation.validateFileType, Bool.and_eq_true,
    List.elem_iff, List.elem_iff]

/-- C8: `sanitizeFileName` is idempotent, and its output contains no
character of the forbidden class `< > : " / \ | ? *` and no control byte,
never starts with `.`, never contains `..`, and has length at most 255. -/
theorem sanitizeFileName_idempotent_and_safe (x : List Char) :
    FileValidation.sanitizeFileName (FileValidation.sanitizeFileName x) =
      FileValidation.sanitizeFileName x ∧
    (∀ c ∈ FileValidation.sanitizeFileName x, isDangerousChar c = false) ∧
    (FileValidation.sanitizeFileName x).head? ≠ some '.' ∧
    ¬ (['.', '.'] <:+: FileValidation.sanitizeFileName x) ∧
    (FileValidation.sanitizeFileName x).length ≤ 255 := by
  obtain ⟨hclean, hchain, hhead, hlen⟩ := FileValidation.sanitizeFileName_props x
  exact ⟨FileValidation.sanitizeFileName_fixed hclean hchain hhead hlen,
    hclean, hhead, FileValidation.not_dotdot_infix_of_chain' hchain, hlen⟩

/-- C10: the Object Store's own `sanitizeFilename` only strips the forbidden
class and truncates to 255, so any filename free of forbidden characters
and control bytes with length at most 255 passes through unchanged, even
one containing `..` or starting with `.`; for such a name `getImageFromDB`
proceeds to the storage lookup under the very same key instead of rejecting
it. -/
theorem store_sanitize_passthrough (f : List Char)
    (hclean : ∀ c ∈ f, isDangerousChar c = false)
    (hlen : f.length ≤ 255) :
    IDB.sanitizeFilename f = f ∧
    ((hasSubstr ['.', '.'] f = true ∨ f.head? = some '.') →
      IDB.getLookupKey f = some f) := by
  have hfix : IDB.sanitizeFilename f = f :=
    IDB.sanitizeFilename_eq_self hclean hlen
  refine ⟨hfix, fun hdots => ?_⟩
  have hne : ¬ (f = []) := by
    rintro rfl
    rcases hdots with h | h
    · simp [hasSubstr, List.isPrefixOf] at h
    · simp at h
  exact IDB.getLookupKey_of_fixed hfix hne

/-- Witness for C10 at the traversal-shaped name `..secret`. -/
theorem store_sanitize_passthrough_witness :
    IDB.sanitizeFilename ("..secret".toList) = "..secret".toList ∧
    ((hasSubstr ['.', '.'] ("..secret".toList) = true ∨
        ("..secret".toList).head? = some '.') →
      IDB.getLookupKey ("..secret".toList) = some ("..secret".toList)) :=
  store_sanitize_passthrough ("..secret".toList) (by decide) (by decide)

/-- C6: when the record found under the requested filename carries a
checksum and the digest recomputed over its payload differs from it,
`getImageFromDB` answers NotFound (`none`); the corrupt payload is never
returned to the caller. -/
theorem checksum_mismatch_returns_none (digest : Blob → String)
    (store : List StoredImage) (filename : List Char) (r : StoredImage)
    (c : String) (hfind : IDB.findRecord store filename = some r)
    (hc : r.checksum = some c) (hne : ¬ (digest r.blob = c)) :
    IDB.getImageFromDB digest store filename = none := by
  rw [IDB.getImageFromDB]
  cases hk : IDB.getLookupKey filename with
  | none => rfl
  | some k =>
    obtain ⟨rfl, -⟩ := IDB.getLookupKey_eq_some hk
    simp [hfind, hc, hne]

/-- Witness for C6: a one-record store whose checksum field disagrees with
the digest of its payload. -/
theorem checksum_mismatch_returns_none_witness :
    IDB.getImageFromDB (fun _ => "expected")
      [{ filename := "a.webp".toList, blob := ⟨[1], "image/webp"⟩,
         timestamp := 0, originalName := none, checksum := some "stored" }]
      ("a.webp".toList) = none :=
  checksum_mismatch_returns_none (fun _ => "expected") _ _
    { filename := "a.webp".toList, blob := ⟨[1], "image/webp"⟩,
      timestamp := 0, originalName := none, checksum := some "stored" }
    "stored" (by decide) rfl (by decide)

/-- C7: with the store at or above `MAX_STORED_IMAGES` live records, a put
whose blob passes validation and whose filename survives sanitization fails
with the storage-limit error, and the store after the failing put is
exactly the store before it: no record is evicted or overwritten. -/
theorem put_at_capacity_fails_without_eviction (digest : Blob → String)
    (store : List StoredImage) (now : Nat) (rand : List Char) (blob : Blob)
    (fn origName : Option (List Char))
    (hv : IDB.validateBlob blob = true)
    (hname : ¬ ((match fn with
      | some f => IDB.sanitizeFilename f
      | none => IDB.generateUniqueFilename now rand) = ([] : List Char)))
    (hfull : IDB.MAX_STORED_IMAGES ≤ store.length) :
    IDB.saveImageToDB digest store now rand blob fn origName =
      (Except.error "Storage limit reached", store) := by
  simp only [IDB.saveImageToDB, hv, Bool.not_true, Bool.false_eq_true,
    if_false]
  rw [if_neg hname, if_pos hfull]

/-- Witness for C7: a store of 100 records refuses the next put and is left
intact. -/
theorem put_at_capacity_fails_without_eviction_witness :
    IDB.saveImageToDB (fun _ => "")
      (List.replicate 100
        { filename := "b.webp".toList, blob := ⟨[1], "image/webp"⟩,
          timestamp := 0, originalName := none, checksum := none })
      0 ("abcde".toList) ⟨[1], "image/webp"⟩ none none =
      (Except.error "Storage limit reached",
       List.replicate 100
        { filename := "b.webp".toList, blob := ⟨[1], "image/webp"⟩,
          timestamp := 0, originalName := none, checksum := none }) :=
  put_at_capacity_fails_without_eviction (fun _ => "") _ 0 ("abcde".toList)
    ⟨[1], "image/webp"⟩ none none (by decide) (by decide)
    (by simp [IDB.MAX_STORED_IMAGES])

theorem get_putRecord (digest : Blob → String) (store : List StoredImage)
    (img : StoredImage)
    (hfix : IDB.sanitizeFilename img.filename = img.filename)
    (hne : ¬ (img.filename = []))
    (hcs : img.checksum = some (digest img.blob))
    (hv : IDB.validateBlob img.blob = true) :
    IDB.getImageFromDB digest (IDB.putRecord store img) img.filename =
      some img.blob := by
  rw [IDB.getImageFromDB]
  simp [IDB.getLookupKey_of_fixed hfix hne, IDB.findRecord_putRecord, hcs, hv]

/-- C1: a payload accepted by `saveImageToDB` (positive size within the
50 MiB cap and an allowed media type, which is exactly what `validateBlob`
enforces on the put path) is read back bit-identically by `getImageFromDB`
under the filename the put returned: no NotFound, no alteration.  The two
side conditions say that the random filename component consists of
benign characters and that the generated name fits in 255 characters,
which is how `Math.random().toString(36)` and `Date.now()` behave. -/
theorem put_get_roundtrip (digest : Blob → String) (store : List StoredImage)
    (now : Nat) (rand : List Char) (blob : Blob)
    (fn origName : Option (List Char)) (f : List Char)
    (store2 : List StoredImage)
    (hrand : ∀ c ∈ rand, isDangerousChar c = false)
    (hglen : (IDB.generateUniqueFilename now rand).length ≤ 255)
    (hsave : IDB.saveImageToDB digest store now rand blob fn origName =
      (Except.ok f, store2)) :
    IDB.getImageFromDB digest store2 f = some blob := by
  cases fn with
  | some x =>
    simp only [IDB.saveImageToDB] at hsave
    split at hsave
    · exact absurd hsave (by simp)
    next hvb =>
      split at hsave
      · exact absurd hsave (by simp)
      next hne =>
        split at hsave
        · exact absurd hsave (by simp)
        next hcap =>
          rw [Prod.mk.injEq] at hsave
          obtain ⟨hf, hstore⟩ := hsave
          rw [Except.ok.injEq] at hf
          have hv : IDB.validateBlob blob = true := by simpa using hvb
          rw [← hstore, ← hf]
          exact get_putRecord digest store _
            (IDB.sanitizeFilename_idem x) hne rfl hv
  | none =>
    simp only [IDB.saveImageToDB] at hsave
    split at hsave
    · exact absurd hsave (by simp)
    next hvb =>
      split at hsave
      · exact absurd hsave (by simp)
      next hne =>
        split at hsave
        · exact absurd hsave (by simp)
        next hcap =>
          rw [Prod.mk.injEq] at hsave
          obtain ⟨hf, hstore⟩ := hsave
          rw [Except.ok.injEq] at hf
          have hv : IDB.validateBlob blob = true := by simpa using hvb
          rw [← hstore, ← hf]
          exact get_putRecord digest store _
            (IDB.sanitizeFilename_eq_self
              (IDB.generateUniqueFilename_clean hrand) hglen) hne rfl hv

/-- Witness for C1: an accepted one-byte WebP payload saved into an empty
store under a generated name is read back intact. -/
theorem put_get_roundtrip_witness :
    IDB.getImageFromDB (fun _ => "")
      [{ filename := "img-0-abcde.webp".toList,
         blob := ⟨[7], "image/webp"⟩, timestamp := 0,
         originalName := none, checksum := some "" }]
      ("img-0-abcde.webp".toList) = some ⟨[7], "image/webp"⟩ :=
  put_get_roundtrip (fun _ => "") [] 0 ("abcde".toList)
    ⟨[7], "image/webp"⟩ none none ("img-0-abcde.webp".toList)
    [{ filename := "img-0-abcde.webp".toList,
       blob := ⟨[7], "image/webp"⟩, timestamp := 0,
       originalName := none, checksum := some "" }]
    (by decide) (by decide) rfl

theorem findRecord_map_blob_congr {store1 store2 : List StoredImage}
    (h : store1.map recordView = store2.map recordView) (k : List Char) :
    (IDB.findRecord store1 k).map (fun r => r.blob) =
      (IDB.findRecord store2 k).map (fun r => r.blob) := by
  induction store1 generalizing store2 with
  | nil =>
    have h2 : store2 = [] := by
      cases store2 with
      | nil => rfl
      | cons r2 t2 => simp [recordView] at h
    subst h2; rfl
  | cons r1 t1 ih =>
    cases store2 with
    | nil => simp [recordView] at h
    | cons r2 t2 =>
      simp only [List.map_cons, List.cons.injEq] at h
      obtain ⟨hrv, ht⟩ := h
      have hfn : r1.filename = r2.filename := congrArg Prod.fst hrv
      have hbl : r1.blob = r2.blob := congrArg Prod.snd hrv
      by_cases hk : r1.filename = k
      · rw [IDB.findRecord, IDB.findRecord,
          List.find?_cons_of_pos _ (by simp [hk]),
          List.find?_cons_of_pos _ (by simp [← hfn, hk])]
        simp [hbl]
      · rw [IDB.findRecord, IDB.findRecord,
          List.find?_cons_of_neg _ (by simp [hk]),
          List.find?_cons_of_neg _ (by simp [← hfn, hk])]
        exact ih ht

/-- C9: the gateway read path is oblivious to checksums.  First conjunct:
two stores that agree on filenames and blobs — differing arbitrarily in
checksum fields (and in the the other metadata the read never touches) —
produce the same gateway response and cache for every requested name.
Second conjunct: on a cache miss, a stored record whose blob passes the
size/type validity check is returned as-is, with no digest recomputation
interposed. -/
theorem gateway_read_ignores_checksum :
    (∀ (cache : List (List Char × Blob)) (store1 store2 : List StoredImage)
        (f : List Char),
      store1.map recordView = store2.map recordView →
      SW.getImageFromDB cache store1 f = SW.getImageFromDB cache store2 f) ∧
    (∀ (cache : List (List Char × Blob)) (store : List StoredImage)
        (f : List Char) (r : StoredImage),
      IDB.sanitizeFilename f = f → ¬ (f = []) →
      cache.find? (fun e => e.1 = f) = none →
      IDB.findRecord store f = some r →
      IDB.validateBlob r.blob = true →
      (SW.getImageFromDB cache store f).1 = some r.blob) := by
  constructor
  · intro cache s1 s2 f h
    simp only [SW.getImageFromDB]
    by_cases hg : (f.filter (fun c => !isDangerousChar c)).take 255 = [] ∨
        ¬ ((f.filter (fun c => !isDangerousChar c)).take 255 = f)
    · rw [if_pos hg, if_pos hg]
    · rw [if_neg hg, if_neg hg]
      cases hc : cache.find?
          (fun e => e.1 = (f.filter (fun c => !isDangerousChar c)).take 255) with
      | some e => rfl
      | none =>
        have hcongr := findRecord_map_blob_congr h
          ((f.filter (fun c => !isDangerousChar c)).take 255)
        cases h1 : IDB.findRecord s1
            ((f.filter (fun c => !isDangerousChar c)).take 255) with
        | none =>
          cases h2 : IDB.findRecord s2
              ((f.filter (fun c => !isDangerousChar c)).take 255) with
          | none => rfl
          | some r2 => rw [h1, h2] at hcongr; simp at hcongr
        | some r1 =>
          cases h2 : IDB.findRecord s2
              ((f.filter (fun c => !isDangerousChar c)).take 255) with
          | none => rw [h1, h2] at hcongr; simp at hcongr
          | some r2 =>
            rw [h1, h2] at hcongr
            simp only [Option.map_some'] at hcongr
            rw [Option.some.injEq] at hcongr
            simp [hcongr]
  · intro cache store f r hfix hne hcache hfind hv
    simp only [SW.getImageFromDB]
    have hfix' : (f.filter (fun c => !isDangerousChar c)).take 255 = f := hfix
    rw [hfix']
    rw [if_neg (by simp [hne]), hcache, hfind]
    simp [hv]

/-- Witness for C9: the same name is served identically from two one-record
stores that differ only in the record's checksum, and the hit returns the
stored blob. -/
theorem gateway_read_ignores_checksum_witness :
    SW.getImageFromDB []
      [{ filename := "a.webp".toList, blob := ⟨[5], "image/webp"⟩,
         timestamp := 0, originalName := none, checksum := some "x" }]
      ("a.webp".toList) =
    SW.getImageFromDB []
      [{ filename := "a.webp".toList, blob := ⟨[5], "image/webp"⟩,
         timestamp := 0, originalName := none, checksum := some "y" }]
      ("a.webp".toList) ∧
    (SW.getImageFromDB []
      [{ filename := "a.webp".toList, blob := ⟨[5], "image/webp"⟩,
         timestamp := 0, originalName := none, checksum := some "x" }]
      ("a.webp".toList)).1 = some ⟨[5], "image/webp"⟩ :=
  ⟨gateway_read_ignores_checksum.1 _ _ _ _ (by decide),
   gateway_read_ignores_checksum.2 _ _ _
     { filename := "a.webp".toList, blob := ⟨[5], "image/webp"⟩,
       timestamp := 0, originalName := none, checksum := some "x" }
     (by decide) (by decide) (by decide) (by decide) (by decide)⟩

theorem validateRequest_true_elim {ro so p : List Char}
    (h : SW.validateRequest ro so p = true) :
    ro = so ∧
    ¬ (removeFirst p SW.IMAGE_PATH_DIR = []) ∧
    (removeFirst p SW.IMAGE_PATH_DIR).length ≤ 255 ∧
    (removeFirst p SW.IMAGE_PATH_DIR).any isDangerousChar = false := by
  simp only [SW.validateRequest] at h
  split at h
  · exact absurd h (by simp)
  next hro =>
    have hro2 : ro = so := by simpa using hro
    split at h
    · exact absurd h (by simp)
    next hA =>
      split at h
      · exact absurd h (by simp)
      next hB =>
        simp only [Bool.or_eq_true, decide_eq_true_eq, not_or] at hA
        obtain ⟨⟨⟨hne, _⟩, _⟩, hlen⟩ := hA
        exact ⟨hro2, by simpa using hne, by omega, by simpa using hB⟩

/-- C5 (counterexample): the filename `.foo` fails `checkName`
(`validateFileName` rejects a leading dot), yet on a same-origin request
for `/imagens-geradas/.foo` against an empty cache and store the gateway
answers 404 and does invoke `getImageFromDB` — not the claimed
400-without-store-access — because `validateRequest` in `sw.js` never
tests for a leading dot. -/
theorem gateway_leading_dot_counterexample :
    FileValidation.validateFileName (".foo".toList) = false ∧
    SW.handleFetch ("https://a".toList) ("https://a".toList)
      ("/imagens-geradas/.foo".toList) [] [] =
      (SW.GatewayOutcome.notFound, true) := by
  decide

/-- C5 (amended): on an intercepted virtual-path request the gateway
answers 400 without invoking `getImageFromDB` when the origin is foreign,
or when the filename component is empty, contains `..` or `/`, is longer
than 255, or contains a forbidden character or control byte (a filename
merely starting with `.` is not among the rejected shapes); when the
request validates but neither cache nor store holds a record under the
name, it answers 404, having invoked `getImageFromDB`. -/
theorem gateway_request_dispatch :
    (∀ (so ro p : List Char) (cache : List (List Char × Blob))
        (store : List StoredImage),
      SW.IMAGE_PATH_DIR.isPrefixOf p = true → ¬ (ro = so) →
      SW.handleFetch so ro p cache store =
        (SW.GatewayOutcome.badRequest, false)) ∧
    (∀ (so p : List Char) (cache : List (List Char × Blob))
        (store : List StoredImage),
      SW.IMAGE_PATH_DIR.isPrefixOf p = true →
      (removeFirst p SW.IMAGE_PATH_DIR = [] ∨
       hasSubstr ['.', '.'] (removeFirst p SW.IMAGE_PATH_DIR) = true ∨
       hasSubstr ['/'] (removeFirst p SW.IMAGE_PATH_DIR) = true ∨
       255 < (removeFirst p SW.IMAGE_PATH_DIR).length ∨
       (removeFirst p SW.IMAGE_PATH_DIR).any isDangerousChar = true) →
      SW.handleFetch so so p cache store =
        (SW.GatewayOutcome.badRequest, false)) ∧
    (∀ (so p : List Char) (cache : List (List Char × Blob))
        (store : List StoredImage),
      SW.IMAGE_PATH_DIR.isPrefixOf p = true →
      SW.validateRequest so so p = true →
      cache.find? (fun e => e.1 = removeFirst p SW.IMAGE_PATH_DIR) = none →
      IDB.findRecord store (removeFirst p SW.IMAGE_PATH_DIR) = none →
      SW.handleFetch so so p cache store =
        (SW.GatewayOutcome.notFound, true)) := by
  refine ⟨?_, ?_, ?_⟩
  · intro so ro p cache store hpre hro
    rw [SW.handleFetch, if_neg (by simp [hpre])]
    rw [if_pos (by rw [SW.validateRequest, if_pos (by simpa using hro)]; simp)]
  · intro so p cache store hpre hbad
    rw [SW.handleFetch, if_neg (by simp [hpre])]
    have hvr : SW.validateRequest so so p = false := by
      simp only [SW.validateRequest]
      rw [if_neg (by simp)]
      split
      · rfl
      next hC =>
        rcases hbad with h | h | h | h | h
        · exact absurd (by simp [h]) hC
        · exact absurd (by simp [h]) hC
        · exact absurd (by simp [h]) hC
        · exact absurd (by simp [h]) hC
        · rw [if_pos h]
    rw [if_pos (by simp [hvr])]
  · intro so p cache store hpre hvr hcache hfind
    obtain ⟨-, hne, hlen, hclean⟩ := validateRequest_true_elim hvr
    have hclean2 : ∀ c ∈ removeFirst p SW.IMAGE_PATH_DIR,
        isDangerousChar c = false := by
      intro c hc
      have := List.any_eq_false.mp (by simpa using hclean) c hc
      simpa using this
    have hfix : ((removeFirst p SW.IMAGE_PATH_DIR).filter
        (fun c => !isDangerousChar c)).take 255 =
        removeFirst p SW.IMAGE_PATH_DIR :=
      IDB.sanitizeFilename_eq_self hclean2 hlen
    have hg : (SW.getImageFromDB cache store
        (removeFirst p SW.IMAGE_PATH_DIR)).1 = none := by
      simp only [SW.getImageFromDB]
      rw [hfix, if_neg (by simp [hne]), hcache, hfind]
    simp only [SW.handleFetch]
    rw [if_neg (by simp [hpre]), if_neg (by simp [hvr]), hg]

/-- Witness for C5 (amended), exercising all three branches: a foreign
origin, a traversal filename, and an unknown well-formed filename. -/
theorem gateway_request_dispatch_witness :
    SW.handleFetch ("https://a".toList) ("https://b".toList)
      ("/imagens-geradas/x.webp".toList) [] [] =
      (SW.GatewayOutcome.badRequest, false) ∧
    SW.handleFetch ("https://a".toList) ("https://a".toList)
      ("/imagens-geradas/a..b".toList) [] [] =
      (SW.GatewayOutcome.badRequest, false) ∧
    SW.handleFetch ("https://a".toList) ("https://a".toList)
      ("/imagens-geradas/x.webp".toList) [] [] =
      (SW.GatewayOutcome.notFound, true) :=
  ⟨gateway_request_dispatch.1 _ _ _ [] [] (by decide) (by decide),
   gateway_request_dispatch.2.1 _ _ [] [] (by decide)
     (Or.inr (Or.inl (by decide))),
   gateway_request_dispatch.2.2 _ _ [] [] (by decide) (by decide)
     (by decide) (by decide)⟩

/-- Bracket invariant of the `[0.1, 0.5]` loop: every probed quality stays
inside the current bracket, and a returned candidate is admissible. -/
theorem lowSearch_spec (enc : ℚ → Nat) (fuel : Nat) :
    ∀ lo hi : ℚ, lo ≤ hi →
      (∀ q ∈ (Optimizer.lowSearch enc fuel lo hi).2, lo ≤ q ∧ q ≤ hi) ∧
      (∀ r, (Optimizer.lowSearch enc fuel lo hi).1 = some r →
        r.size ≤ Optimizer.TARGET_MAX_BYTES) := by
  induction fuel with
  | zero =>
    intro lo hi _
    constructor
    · intro q hq; simp [Optimizer.lowSearch] at hq
    · intro r hr; simp [Optimizer.lowSearch] at hr
  | succ n ih =>
    intro lo hi hle
    have hmid1 : lo ≤ (lo + hi) / 2 := by linarith
    have hmid2 : (lo + hi) / 2 ≤ hi := by linarith
    rw [Optimizer.lowSearch]
    by_cases hs : enc ((lo + hi) / 2) ≤ Optimizer.TARGET_MAX_BYTES
    · rw [if_pos hs]
      constructor
      · intro q hq
        rcases List.mem_singleton.mp hq with rfl
        exact ⟨hmid1, hmid2⟩
      · intro r hr
        rw [Option.some.injEq] at hr
        rw [← hr]
        exact hs
    · rw [if_neg hs]
      obtain ⟨ih1, ih2⟩ := ih lo ((lo + hi) / 2) hmid1
      constructor
      · intro q hq
        rcases List.mem_cons.mp hq with rfl | hq2
        · exact ⟨hmid1, hmid2⟩
        · obtain ⟨h1, h2⟩ := ih1 q hq2
          exact ⟨h1, h2.trans hmid2⟩
      · exact ih2

/-- C2 (amended): when the 0.98 probe is not already below `minBytes` and
the 0.5 probe exceeds `maxBytes`, and the `[0.1, 0.5]` bisection finds an
admissible candidate within its 15 iterations, the optimizer returns that
candidate: its size is `≤ maxBytes`, and every quality probed after the
two initial probes lies in `[0.1, 0.5]`.  (If none of the 15 candidates is
admissible the code instead falls through to the `[0.5, 0.98]` search, so
the universal range statement of the original claim does not hold there —
see the counterexample.) -/
theorem low_range_bisection (enc : ℚ → Nat) (r : Optimizer.WebPResult)
    (qs : List ℚ)
    (h1 : Optimizer.TARGET_MIN_BYTES ≤ enc (98 / 100))
    (h2 : Optimizer.TARGET_MAX_BYTES < enc (1 / 2))
    (h3 : Optimizer.lowSearch enc Optimizer.ITERATIONS (1 / 10) (1 / 2) =
      (some r, qs)) :
    Optimizer.generateOptimizedWebP enc = (r, [98 / 100, 1 / 2] ++ qs) ∧
    r.size ≤ Optimizer.TARGET_MAX_BYTES ∧
    ∀ q ∈ (Optimizer.generateOptimizedWebP enc).2.drop 2,
      (1 : ℚ) / 10 ≤ q ∧ q ≤ 1 / 2 := by
  obtain ⟨hrange, hret⟩ :=
    lowSearch_spec enc Optimizer.ITERATIONS (1 / 10) (1 / 2) (by norm_num)
  have hmain : Optimizer.generateOptimizedWebP enc =
      (r, [98 / 100, 1 / 2] ++ qs) := by
    simp only [Optimizer.generateOptimizedWebP]
    rw [if_neg (by omega), if_pos h2, h3]
  refine ⟨hmain, hret r (by rw [h3]), ?_⟩
  intro q hq
  rw [hmain] at hq
  simp only [List.drop_succ_cons, List.drop_zero] at hq
  exact hrange q (by rw [h3]; exact hq)

theorem lowSearch_all_big (enc : ℚ → Nat)
    (h : ∀ q, Optimizer.TARGET_MAX_BYTES < enc q) :
    ∀ (fuel : Nat) (lo hi : ℚ), (Optimizer.lowSearch enc fuel lo hi).1 = none := by
  intro fuel
  induction fuel with
  | zero => intro lo hi; rfl
  | succ n ih =>
    intro lo hi
    rw [Optimizer.lowSearch, if_neg (not_le.mpr (h _))]
    exact ih lo ((lo + hi) / 2)

theorem highSearch_probes_head (enc : ℚ → Nat) (n : Nat) (lo hi : ℚ)
    (best : Optimizer.WebPResult) (closest : Nat) :
    ∃ t, (Optimizer.highSearch enc (n + 1) lo hi best closest).2 =
      (lo + hi) / 2 :: t := by
  simp only [Optimizer.highSearch]
  split
  · exact ⟨_, rfl⟩
  · exact ⟨_, rfl⟩

theorem genOpt_probes_fallthrough (enc : ℚ → Nat) (qs : List ℚ)
    (h1 : ¬ (enc (98 / 100) < Optimizer.TARGET_MIN_BYTES))
    (h2 : Optimizer.TARGET_MAX_BYTES < enc (1 / 2))
    (h3 : Optimizer.lowSearch enc Optimizer.ITERATIONS (1 / 10) (1 / 2) =
      (none, qs)) :
    (Optimizer.generateOptimizedWebP enc).2 = [98 / 100, 1 / 2] ++ qs ++
      (Optimizer.highSearch enc Optimizer.ITERATIONS (1 / 2) (98 / 100)
        ⟨98 / 100, enc (98 / 100)⟩
        (Nat.dist (enc (98 / 100)) Optimizer.TARGET_MID)).2 := by
  simp only [Optimizer.generateOptimizedWebP]
  rw [if_neg h1, if_pos h2, h3]

/-- Witness for C2 (amended): an encoder whose size drops to 80000 bytes
at qualities at most 0.3 is caught by the first `[0.1, 0.5]` probe. -/
theorem low_range_bisection_witness :
    Optimizer.generateOptimizedWebP
      (fun q => if q ≤ (3 : ℚ) / 10 then 80000 else 204800) =
      (⟨(3 : ℚ) / 10, 80000⟩, [98 / 100, 1 / 2] ++ [(3 : ℚ) / 10]) :=
  (low_range_bisection (fun q => if q ≤ (3 : ℚ) / 10 then 80000 else 204800)
    ⟨(3 : ℚ) / 10, 80000⟩ [(3 : ℚ) / 10]
    (by norm_num [Optimizer.TARGET_MIN_BYTES])
    (by norm_num [Optimizer.TARGET_MAX_BYTES])
    (by
      rw [show Optimizer.ITERATIONS = 14 + 1 from rfl, Optimizer.lowSearch,
        show ((1 : ℚ) / 10 + 1 / 2) / 2 = 3 / 10 by norm_num,
        if_pos (by rw [if_pos (by norm_num)]
                   norm_num [Optimizer.TARGET_MAX_BYTES]),
        if_pos (by norm_num)])).1

/-- C2 (counterexample): for a source whose encoding has 204800 bytes at
every quality the premise of the claim holds (the 0.5 probe exceeds
`maxBytes`), no `[0.1, 0.5]` candidate is admissible, and the optimizer
then probes quality 0.74 — a candidate considered after the 0.5 probe that
lies outside `[0.1, 0.5]`. -/
theorem low_range_bisection_counterexample :
    Optimizer.TARGET_MIN_BYTES ≤ 204800 ∧
    Optimizer.TARGET_MAX_BYTES < 204800 ∧
    (37 : ℚ) / 50 ∈
      (Optimizer.generateOptimizedWebP (fun _ => 204800)).2.drop 2 ∧
    ¬ ((37 : ℚ) / 50 ≤ 1 / 2) := by
  have hbig : ∀ q : ℚ, Optimizer.TARGET_MAX_BYTES < (fun _ => 204800) q :=
    fun _ => by norm_num [Optimizer.TARGET_MAX_BYTES]
  refine ⟨by norm_num [Optimizer.TARGET_MIN_BYTES],
    by norm_num [Optimizer.TARGET_MAX_BYTES], ?_, by norm_num⟩
  cases hls : Optimizer.lowSearch (fun _ => 204800) Optimizer.ITERATIONS
      (1 / 10) (1 / 2) with
  | mk o qs =>
    have ho : o = none := by
      have h := lowSearch_all_big (fun _ => 204800) hbig
        Optimizer.ITERATIONS (1 / 10) (1 / 2)
      rw [hls] at h
      exact h
    subst ho
    rw [genOpt_probes_fallthrough (fun _ => 204800) qs
      (by norm_num [Optimizer.TARGET_MIN_BYTES])
      (by norm_num [Optimizer.TARGET_MAX_BYTES]) hls]
    obtain ⟨t, ht⟩ := highSearch_probes_head (fun _ => 204800) 14 (1 / 2)
      (98 / 100) ⟨98 / 100, 204800⟩ (Nat.dist 204800 Optimizer.TARGET_MID)
    rw [show Optimizer.ITERATIONS = 14 + 1 from rfl, ht,
      show ((1 : ℚ) / 2 + 98 / 100) / 2 = 37 / 50 by norm_num]
    simp

/-- Witness for C4 (amended): both independent checks pass for a WebP file,
so `validateFileType` accepts it, through the characterization. -/
theorem validateFileType_characterization_witness :
    FileValidation.validateFileType "image/webp" ("x.webp".toList) = true :=
  (validateFileType_characterization "image/webp" ("x.webp".toList)).mpr
    ⟨by decide, by decide⟩

/-- Witness for C8, at a name with dangerous characters and dot runs. -/
theorem sanitizeFileName_idempotent_and_safe_witness :
    FileValidation.sanitizeFileName
      (FileValidation.sanitizeFileName ("..we<b?p..img".toList)) =
      FileValidation.sanitizeFileName ("..we<b?p..img".toList) ∧
    (FileValidation.sanitizeFileName ("..we<b?p..img".toList)).length ≤ 255 :=
  ⟨(sanitizeFileName_idempotent_and_safe ("..we<b?p..img".toList)).1,
   (sanitizeFileName_idempotent_and_safe ("..we<b?p..img".toList)).2.2.2.2⟩
